import Mathlib

/-!
Verification of the state cache and synchronization engine of
AudioDpiSwitcher (src/audio_taskbar_switcher.pyw).

The Python source is shallowly embedded:

* JSON values returned by `json.loads` are the inductive `Json`
  (numeric literals are modelled as integers; the mapping file only
  ever stores integers).
* Python dicts are association lists without duplicate keys; `dget`
  models `d.get(k)` and `dinsert` models `d[k] = v` (updating an
  existing key keeps its position, as CPython dicts do).
* External processes (`powershell`, `SetDpi.exe`) and the standard
  library pieces outside the repository (`json.loads`, the file
  system) are oracles collected in the `World` structure.  A Python
  exception is an `Except.error`; code that the source wraps in
  `try/except` is modelled by matching on the `Except` result.
* The durable mapping file is a `FileState`: missing, unreadable or
  unparsable, or holding a parsed JSON document.  `json.dump`
  followed by `json.load` round-trips through the document itself.
-/

/-- JSON values as produced by Python `json.loads`. -/
inductive Json where
  | jnull
  | jbool (b : Bool)
  | jnum (n : Int)
  | jstr (s : String)
  | jarr (xs : List Json)
  | jobj (es : List (String × Json))

/-- `d.get(k)`: first binding of `k` in the association list. -/
def dget {α β : Type} [DecidableEq α] : List (α × β) → α → Option β
  | [], _ => none
  | (k1, v) :: rest, k => if k1 = k then some v else dget rest k

/-- `d[k] = v`: update the existing binding in place, else append
(CPython dict semantics: an updated key keeps its position). -/
def dinsert {α β : Type} [DecidableEq α] : List (α × β) → α → β → List (α × β)
  | [], k, v => [(k, v)]
  | (k1, v1) :: rest, k, v =>
      if k1 = k then (k, v) :: rest else (k1, v1) :: dinsert rest k v

/-- The key list of a Python dict. -/
def dkeys {α β : Type} (d : List (α × β)) : List α := d.map Prod.fst

/-- Python truthiness of a JSON value (`if x:`). -/
def pyTruthy : Json → Bool
  | .jnull => false
  | .jbool b => b
  | .jnum n => n != 0
  | .jstr s => !s.isEmpty
  | .jarr xs => !xs.isEmpty
  | .jobj es => !es.isEmpty

/-- Python `str.strip()`: drop whitespace from both ends. -/
def pyStripS (s : String) : String :=
  String.mk
    (((s.data.dropWhile Char.isWhitespace).reverse.dropWhile
        Char.isWhitespace).reverse)

/-- Accumulate a non-empty run of decimal digits. -/
def digitsAcc : List Char → Nat → Option Nat
  | [], acc => some acc
  | c :: rest, acc =>
      if c.isDigit then digitsAcc rest (acc * 10 + (c.toNat - 48)) else none

/-- A non-empty all-digit string as a number. -/
def digitsVal : List Char → Option Nat
  | [] => none
  | cs => digitsAcc cs 0

/-- `int(s)` on a Python string: optional sign and decimal digits
after stripping surrounding whitespace, else `ValueError` (digit
grouping underscores and non-ASCII digits are not modelled). -/
def pyIntOfStr (s : String) : Option Int :=
  match (pyStripS s).data with
  | '+' :: rest => (digitsVal rest).map Int.ofNat
  | '-' :: rest => (digitsVal rest).map (fun n => -(n : Int))
  | cs => (digitsVal cs).map Int.ofNat

/-- `int(v)` applied to a JSON value: integers pass through, booleans
become 0 or 1, numeric strings parse, everything else raises. -/
def pyInt : Json → Except String Int
  | .jbool b => .ok (if b then 1 else 0)
  | .jnum n => .ok n
  | .jstr s =>
      match pyIntOfStr s with
      | some n => .ok n
      | none => .error "ValueError"
  | .jnull => .error "TypeError"
  | .jarr _ => .error "TypeError"
  | .jobj _ => .error "TypeError"

/-- Durable state of the mapping file `monitor_map.json`. -/
inductive FileState where
  | absent
  | unparsable
  | content (j : Json)

/-- The dict comprehension in `load_map`:
`{str(k): int(v) for k, v in data.items()}`, left to right, aborting
at the first value `int` rejects (JSON object keys are strings, so
`str(k)` is the identity). -/
def convEntries : List (String × Json) → List (String × Int) →
    Except String (List (String × Int))
  | [], acc => .ok acc
  | (k, v) :: rest, acc =>
      match pyInt v with
      | .ok n => convEntries rest (dinsert acc k n)
      | .error e => .error e

/-- Body of the `try` block of `load_map`: open the file, `json.load`
it and convert every entry; any step may raise. -/
def load_map_body : FileState → Except String (List (String × Int))
  | .absent => .error "FileNotFoundError"
  | .unparsable => .error "JSONDecodeError"
  | .content j =>
      match j with
      | .jobj es => convEntries es []
      | _ => .error "AttributeError"

/-- `load_map()`: the `try` body with `except Exception: return {}`. -/
def load_map (f : FileState) : List (String × Int) :=
  match load_map_body f with
  | .ok m => m
  | .error _ => []

/-- The JSON document `json.dump` writes for a mapping table. -/
def mapToJson (m : List (String × Int)) : Json :=
  .jobj (m.map (fun p => (p.1, .jnum p.2)))

/-- Fate of one `save_map` call.  `open(MAP_FILE, "w")` truncates the
file before `json.dump` starts writing, so the three observable
outcomes are: the write completes; `open` itself raises and the file
is untouched; or a failure after `open` leaves a truncated or partial
text that no longer parses. -/
inductive SaveOutcome where
  | ok
  | failOpen
  | failMidWrite

/-- `save_map(m)`: best effort write; every exception is caught and
logged, so the call itself never raises. -/
def save_map (m : List (String × Int)) (file : FileState) :
    SaveOutcome → FileState
  | .ok => .content (mapToJson m)
  | .failOpen => file
  | .failMidWrite => .unparsable

/-- The globals `set_mapping` touches: the in-memory table
`state["idx_map"]` and the durable mapping file. -/
structure MapState where
  idx_map : List (String × Int)
  file : FileState

/-- `set_mapping(fp, idx)`: copy the in-memory table, merge the one
entry (`int(idx)` on an int is the identity), install it, and persist
via `save_map`.  The refresh it triggers is modelled separately by the
dispatcher trace semantics. -/
def set_mapping (fp : String) (idx : Int) (s : MapState)
    (o : SaveOutcome) : MapState :=
  let new_map := dinsert s.idx_map fp idx
  { idx_map := new_map, file := save_map new_map s.file o }

/-- Result of one `subprocess.run` with `capture_output=True` and
`text=True`: the captured standard output (a string, possibly empty;
a non-zero exit status still yields a `CompletedProcess`). -/
structure Cp where
  stdout : String

/-- The environment a refresh pass runs in.  Each field is one
external oracle: the three powershell invocations of the pass, the
`json.loads` parser from the standard library, the mapping file, and
the `SetDpi.exe` tool.  An `Except.error` models the call itself
raising (for instance the executable being absent). -/
structure World where
  psList : Except String Cp
  psDefault : String → Except String Cp
  psMonitors : Except String Cp
  jsonLoads : String → Except String Json
  file : FileState
  setdpiExists : Bool
  dpiRun : Int → Except String Cp
  now : Nat

/-- `list_audio_devices()`: `run_ps` outside the `try` (its exception
propagates), then `json.loads(cp.stdout) if cp.stdout else []` and
`[data] if isinstance(data, dict) else (data or [])`, with the parse
guarded by `except Exception: return []`.  Note the returned payload
is whatever `json.loads` produced: only a falsy value is replaced by
the empty list, a truthy non-list survives unvalidated. -/
def list_audio_devices (w : World) : Except String Json := do
  let cp ← w.psList
  let parsed : Except String Json :=
    if cp.stdout.isEmpty then .ok (.jarr []) else w.jsonLoads cp.stdout
  pure
    (match parsed with
     | .error _ => .jarr []
     | .ok d =>
         match d with
         | .jobj _ => .jarr [d]
         | _ => if pyTruthy d then d else .jarr [])

/-- `df == 0` / `df == 1` on the raw `DataFlow` value: Python equality
between a JSON value and an int literal (`True == 1`, `None == 0` is
false, `"0" == 0` is false). -/
def pyEqNum : Json → Int → Bool
  | .jnum n, m => n == m
  | .jbool b, m => (if b then (1 : Int) else 0) == m
  | _, _ => false

/-- The `is_type` predicate of `list_devices_by_type_from_raw`. -/
def isTypeDf (device_type : String) (df : Json) : Bool :=
  (device_type == "playback" && pyEqNum df 0) ||
    (device_type == "recording" && pyEqNum df 1)

/-- The comprehension of `list_devices_by_type_from_raw` over an
already-iterable payload: for each element `d`, evaluate
`d.get("Name") and is_type(d)` then build `(d.get("Name", ""),
d.get("ID", ""))`.  `.get` on a non-dict element raises. -/
def devFilter (device_type : String) : List Json →
    Except String (List (Json × Json))
  | [] => .ok []
  | d :: rest =>
      match d with
      | .jobj es =>
          let nameJ := (dget es "Name").getD .jnull
          if pyTruthy nameJ then do
            let df ←
              match (dget es "Device").getD (.jobj []) with
              | .jobj des => Except.ok ((dget des "DataFlow").getD .jnull)
              | _ => Except.error "AttributeError"
            let rest1 ← devFilter device_type rest
            pure
              (if isTypeDf device_type df then
                ((dget es "Name").getD (.jstr ""),
                  (dget es "ID").getD (.jstr "")) :: rest1
               else rest1)
          else devFilter device_type rest
      | _ => .error "AttributeError"

/-- `list_devices_by_type_from_raw(devices, t)`: iterate the payload.
Iterating a non-list is a `TypeError`, except that strings iterate
over their characters and dicts over their keys, whose `.get` then
raises unless the iteration is empty. -/
def list_devices_by_type_from_raw (devices : Json)
    (device_type : String) : Except String (List (Json × Json)) :=
  match devices with
  | .jarr xs => devFilter device_type xs
  | .jstr s => if s.isEmpty then .ok [] else .error "AttributeError"
  | .jobj es => if es.isEmpty then .ok [] else .error "AttributeError"
  | _ => .error "TypeError"

/-- The `roles` dict of `get_default_ids`, in insertion order. -/
def roleParams : List (String × String) :=
  [("output", "-Playback"), ("output_comm", "-PlaybackCommunication"),
   ("input", "-Recording"), ("input_comm", "-RecordingCommunication")]

/-- `get_default_ids()`: one unguarded `run_ps` per role, then
`(cp.stdout or "").strip() or None`. -/
def get_default_ids (w : World) :
    Except String (List (String × Option String)) :=
  roleParams.foldlM
    (fun out kp => do
      let cp ← w.psDefault kp.2
      let v := pyStripS cp.stdout
      pure (dinsert out kp.1 (if v.isEmpty then none else some v)))
    []

/-- One parsed monitor: ephemeral enumeration index, display name
(kept as the raw JSON value the payload carried) and EDID
fingerprint. -/
structure Monitor where
  index : Int
  name : Json
  fp : String

/-- `x or d` on a JSON value with a default. -/
def pyOrJ (j : Json) (d : Json) : Json := if pyTruthy j then j else d

/-- `.strip()` on a JSON value: only strings have the method. -/
def pyStrip : Json → Except String String
  | .jstr s => .ok (pyStripS s)
  | _ => .error "AttributeError"

/-- The body of the monitor loop of `list_monitors` for one element
`m` of the parsed array. -/
def parseMon (m : Json) : Except String Monitor :=
  match m with
  | .jobj es => do
      let idx ← pyInt (pyOrJ ((dget es "Index").getD (.jnum 0)) (.jnum 0))
      let name := pyOrJ ((dget es "Name").getD .jnull)
        (.jstr ("Monitor #" ++ toString idx))
      let man ← pyStrip (pyOrJ ((dget es "Manufacturer").getD .jnull) (.jstr ""))
      let prod ← pyStrip (pyOrJ ((dget es "Product").getD .jnull) (.jstr ""))
      let ser ← pyStrip (pyOrJ ((dget es "Serial").getD .jnull) (.jstr "NOSN"))
      pure { index := idx, name := name, fp := man ++ "|" ++ prod ++ "|" ++ ser }
  | _ => .error "AttributeError"

/-- The `try` body of `list_monitors`: parse, wrap a single dict into
a one-element list, iterate `arr or []`. -/
def parseMons (w : World) (stdout : String) : Except String (List Monitor) := do
  let arr ← if stdout.isEmpty then pure (.jarr []) else w.jsonLoads stdout
  let arr := match arr with | .jobj _ => Json.jarr [arr] | _ => arr
  let items ←
    if pyTruthy arr then
      match arr with
      | .jarr xs => pure xs
      | _ => Except.error "TypeError"
    else pure ([] : List Json)
  items.mapM parseMon

/-- The degraded fallback monitor of the `except` branch. -/
def fakeMon (i : Int) : Monitor :=
  { index := i, name := .jstr ("Monitor #" ++ toString i),
    fp := "FAKE||" ++ toString i }

/-- `list_monitors()`: `run_ps` outside the `try` (its exception
propagates); any exception inside the parse falls back to two
pseudo-fingerprint monitors. -/
def list_monitors (w : World) : Except String (List Monitor) := do
  let cp ← w.psMonitors
  pure
    (match parseMons w cp.stdout with
     | .ok ms => ms
     | .error _ => [fakeMon 1, fakeMon 2])

/-- `get_dpi_value(monitor)`: `None` when `SetDpi.exe` is missing,
else run it (unguarded) and return the stripped output `or None`. -/
def get_dpi_value (w : World) (monitor : Int) : Except String (Option String) :=
  if w.setdpiExists then do
    let cp ← w.dpiRun monitor
    let val := pyStripS cp.stdout
    pure (if val.isEmpty then none else some val)
  else pure none

/-- `idx = idx_map.get(m["fp"], m["index"])`: the effective SetDpi
target index of a monitor. -/
def effIdx (idx_map : List (String × Int)) (m : Monitor) : Int :=
  (dget idx_map m.fp).getD m.index

/-- The effective target indices of a monitor list. -/
def effIndices (idx_map : List (String × Int)) (mons : List Monitor) :
    List Int :=
  mons.map (effIdx idx_map)

/-- `if val: dpi[idx] = val` for a single read result. -/
def applyRead (dpi : List (Int × String)) (idx : Int)
    (val : Option String) : List (Int × String) :=
  match val with
  | some v => if v.isEmpty then dpi else dinsert dpi idx v
  | none => dpi

/-- The DPI loop of `collect_state`: query the effective index of each
monitor in turn, keeping only truthy reads. -/
def collect_dpi (w : World) (idx_map : List (String × Int)) :
    List Monitor → List (Int × String) → Except String (List (Int × String))
  | [], dpi => .ok dpi
  | m :: rest, dpi => do
      let idx := effIdx idx_map m
      let val ← get_dpi_value w idx
      collect_dpi w idx_map rest (applyRead dpi idx val)

/-- The aggregate written into the state cache: the seven fields of
the global `state` dict. -/
structure Snapshot where
  outs : List (Json × Json)
  ins : List (Json × Json)
  defs : List (String × Option String)
  mons : List Monitor
  idx_map : List (String × Int)
  dpi : List (Int × String)
  last_update : Nat

/-- `collect_state()`: the whole refresh pass, with no `try` of its
own; any uncaught exception of a sub-query aborts it. -/
def collect_state (w : World) : Except String Snapshot := do
  let raw_devices ← list_audio_devices w
  let outs ← list_devices_by_type_from_raw raw_devices "playback"
  let ins ← list_devices_by_type_from_raw raw_devices "recording"
  let defs ← get_default_ids w
  let mons ← list_monitors w
  let idx_map := load_map w.file
  let dpi ← collect_dpi w idx_map mons []
  pure { outs := outs, ins := ins, defs := defs, mons := mons,
         idx_map := idx_map, dpi := dpi, last_update := w.now }

/-- `_refresh_worker()`: `collect_state` wrapped in
`try/except Exception: pass`; a failed pass leaves the previous
state. -/
def refresh_worker (w : World) (prev : Snapshot) : Snapshot :=
  match collect_state w with
  | .ok snap => snap
  | .error _ => prev

/-- The value a successful truthy read at an index yields, if any:
what the DPI loop would store for that index. -/
def goodRead (w : World) (idx : Int) : Option String :=
  match get_dpi_value w idx with
  | .ok (some v) => if v.isEmpty then none else some v
  | _ => none

/-- `w` with the audio listing query returning empty output. -/
def audioBlank (w : World) : World := { w with psList := .ok { stdout := "" } }

/-- `set_default_device(device_id, role)`: a no-op on an empty id,
otherwise the mutation flag passed to `Set-AudioDevice` (the issued
command, with the id elided; `none` means no command is run). -/
def set_default_device (device_id : String) (role : String) : Option String :=
  if device_id.isEmpty then none
  else some
    (if role == "console" then "-DefaultOnly"
     else if role == "communications" then "-CommunicationOnly"
     else "")

/-- `MAX_IDX_CHOICES` from the source. -/
def MAX_IDX_CHOICES : Nat := 8

/-- `max_choice = max(MAX_IDX_CHOICES, len(mons))` in
`_menu_items_dynamic`. -/
def maxChoice (mons : List Monitor) : Nat := max MAX_IDX_CHOICES mons.length

/-- The target indices the mapping submenu offers, from
`for n in range(1, max_choice + 1)`: the only indices for which a
`make_map_choice_handler` (and hence a `set_mapping` dispatch) is ever
created by the UI. -/
def map_choice_indices (mons : List Monitor) : List Nat :=
  List.range' 1 (maxChoice mons)

/-- The calls a dispatched action makes, as trace events. -/
inductive Ev where
  | mutDpi
  | mutAudio
  | updMap
  | writeFile
  | logPrint
  | refresh
deriving DecidableEq, BEq

/-- The statement shapes the three handlers use. -/
inductive Stmt where
  | call (e : Ev)
  | seq (a b : Stmt)
  | tryFinally (body fin2 : Stmt)
  | tryCatchAll (body handler : Stmt)

/-- Run a statement against an oracle saying which calls raise.
Returns the trace of calls made (a call is recorded even when it
raises) and whether an exception escapes. -/
def exec : Stmt → (Ev → Bool) → List Ev × Bool
  | .call e, f => ([e], f e)
  | .seq a b, f =>
      let r := exec a f
      if r.2 then (r.1, true)
      else
        let r2 := exec b f
        (r.1 ++ r2.1, r2.2)
  | .tryFinally a b, f =>
      let r := exec a f
      let r2 := exec b f
      (r.1 ++ r2.1, r.2 || r2.2)
  | .tryCatchAll a b, f =>
      let r := exec a f
      if r.2 then
        let r2 := exec b f
        (r.1 ++ r2.1, r2.2)
      else (r.1, false)

/-- The `work` closure of `make_set_dpi_handler`:
`try: set_dpi(pct, idx) finally: refresh_state_async()`. -/
def setDpiProg : Stmt := .tryFinally (.call .mutDpi) (.call .refresh)

/-- The `work` closure of `make_set_audio_handler`:
`try: set_default_device(...) finally: refresh_state_async()`. -/
def setAudioProg : Stmt := .tryFinally (.call .mutAudio) (.call .refresh)

/-- `save_map`: `try: open+json.dump except Exception: print(...)`. -/
def saveMapProg : Stmt := .tryCatchAll (.call .writeFile) (.call .logPrint)

/-- `set_mapping`: update the in-memory table under the lock, then
`save_map`, then `refresh_state_async()` (no `finally`). -/
def setMappingProg : Stmt :=
  .seq (.call .updMap) (.seq saveMapProg (.call .refresh))

/-- Count the refresh triggers in a trace. -/
def countRefresh (t : List Ev) : Nat := t.countP (fun e => e == Ev.refresh)

/-- Who holds `state_lock`. -/
inductive LockOwner where
  | nobody
  | writer
  | reader
deriving DecidableEq

/-- Pointwise update of a field array. -/
def updf (f : Nat → Bool) (k : Nat) (b : Bool) : Nat → Bool :=
  fun i => if i = k then b else f i

/-- Interleaving model of the state cache.  The writer is the
`with state_lock` block at the end of `collect_state`, which assigns
the seven fields `outs, ins, defs, mons, idx_map, dpi, last_update`
of the global `state` dict one by one; the reader is the
`with state_lock` block at the top of `_menu_items_dynamic`, which
copies the same seven fields into locals.  `store k = false` means
field `k` still holds the old snapshot value, `true` the new one;
`regs` are the reader's copies (`false` records having read the old
value of the field, `true` the new one). -/
structure CacheSys where
  wpc : Nat
  rpc : Nat
  lock : LockOwner
  store : Nat → Bool
  regs : Nat → Bool

/-- Program counters: 0 = before `acquire`, `k + 1` (k < 7) = about to
write/read field `k`, 8 = about to `release`, 9 = done. -/
inductive CStep : CacheSys → CacheSys → Prop
  | wAcq (s : CacheSys) (h1 : s.lock = .nobody) (h2 : s.wpc = 0) :
      CStep s { s with wpc := 1, lock := .writer }
  | wWrite (s : CacheSys) (k : Nat) (h : s.wpc = k + 1) (hk : k < 7) :
      CStep s { s with wpc := k + 2, store := updf s.store k true }
  | wRel (s : CacheSys) (h : s.wpc = 8) :
      CStep s { s with wpc := 9, lock := .nobody }
  | rAcq (s : CacheSys) (h1 : s.lock = .nobody) (h2 : s.rpc = 0) :
      CStep s { s with rpc := 1, lock := .reader }
  | rRead (s : CacheSys) (k : Nat) (h : s.rpc = k + 1) (hk : k < 7) :
      CStep s { s with rpc := k + 2, regs := updf s.regs k (s.store k) }
  | rRel (s : CacheSys) (h : s.rpc = 8) :
      CStep s { s with rpc := 9, lock := .nobody }

/-- Initial system: lock free, all fields old, neither side started. -/
def cacheInit : CacheSys :=
  { wpc := 0, rpc := 0, lock := .nobody,
    store := fun _ => false, regs := fun _ => false }

/-- States reachable by interleaving writer and reader steps. -/
inductive CReach : CacheSys → Prop
  | init : CReach cacheInit
  | step {s s2 : CacheSys} : CReach s → CStep s s2 → CReach s2

/-- Fields already written at a writer program counter. -/
def writesDone (wpc : Nat) : Nat := min (wpc - 1) 7

/-- Fields already copied at a reader program counter. -/
def readsDone (rpc : Nat) : Nat := min (rpc - 1) 7

/-- The inductive invariant of the cache system. -/
structure CacheInv (s : CacheSys) : Prop where
  hw : s.wpc ≤ 9
  hr : s.rpc ≤ 9
  hstore : ∀ k, k < 7 → s.store k = decide (k < writesDone s.wpc)
  hwl : 1 ≤ s.wpc → s.wpc ≤ 8 → s.lock = .writer
  hrl : 1 ≤ s.rpc → s.rpc ≤ 8 → s.lock = .reader
  hregs : 1 ≤ s.rpc → s.rpc ≤ 8 →
    ∀ k, k < readsDone s.rpc → s.regs k = s.store k
  hdone : s.rpc = 9 →
    (∀ k, k < 7 → s.regs k = false) ∨ (∀ k, k < 7 → s.regs k = true)

/-- A monitor payload with full EDID identity, as the powershell
enumeration emits it. -/
def monJsonA : Json :=
  .jobj [("Index", .jnum 1), ("Name", .jstr "M"),
         ("Manufacturer", .jstr "AAA"), ("Product", .jstr "0001"),
         ("Serial", .jstr "S1")]

/-- The parsed form of `monJsonA`. -/
def mon1 : Monitor := { index := 1, name := .jstr "M", fp := "AAA|0001|S1" }

/-- A world where every audio query returns nothing, one monitor
enumerates fine, no mapping file exists, and `SetDpi.exe` prints
nothing at every index (so every scale read is absent). -/
def w0 : World :=
  { psList := .ok { stdout := "" }
    psDefault := fun _ => .ok { stdout := "" }
    psMonitors := .ok { stdout := "MON" }
    jsonLoads := fun s =>
      if s == "MON" then .ok (.jarr [monJsonA]) else .error "JSONDecodeError"
    file := .absent
    setdpiExists := true
    dpiRun := fun _ => .ok { stdout := "" }
    now := 0 }

/-- Like `w0`, but the monitor fingerprint is mapped to index 7 in the
mapping file and `SetDpi.exe` answers at every index. -/
def w1 : World :=
  { w0 with
    file := .content (.jobj [("AAA|0001|S1", .jnum 7)])
    dpiRun := fun i => .ok { stdout := if i == 7 then "125" else "100" } }

/-- Like `w0`, but the audio listing query outputs `5`: valid JSON
that is neither a dict nor a list. -/
def w2 : World :=
  { w0 with
    psList := .ok { stdout := "5" }
    jsonLoads := fun s =>
      if s == "MON" then .ok (.jarr [monJsonA])
      else if s == "5" then .ok (.jnum 5)
      else .error "JSONDecodeError" }

/-- The snapshot `w0` collects. -/
def snap0 : Snapshot :=
  match collect_state w0 with
  | .ok s => s
  | .error _ => { outs := [], ins := [], defs := [], mons := [],
                  idx_map := [], dpi := [], last_update := 0 }

/-- The snapshot `w1` collects. -/
def snap1 : Snapshot :=
  match collect_state w1 with
  | .ok s => s
  | .error _ => { outs := [], ins := [], defs := [], mons := [],
                  idx_map := [], dpi := [], last_update := 0 }

/-- A well-defined empty snapshot (the initial global `state`). -/
def emptySnap : Snapshot :=
  { outs := [], ins := [], defs := [], mons := [], idx_map := [],
    dpi := [], last_update := 0 }

/-- States of a reader-only run of the cache system (acquire, copy
the seven fields, release). -/
def rs1 : CacheSys := { cacheInit with rpc := 1, lock := .reader }

def rs2 : CacheSys := { rs1 with rpc := 0 + 2, regs := updf rs1.regs 0 (rs1.store 0) }

def rs3 : CacheSys := { rs2 with rpc := 1 + 2, regs := updf rs2.regs 1 (rs2.store 1) }

def rs4 : CacheSys := { rs3 with rpc := 2 + 2, regs := updf rs3.regs 2 (rs3.store 2) }

def rs5 : CacheSys := { rs4 with rpc := 3 + 2, regs := updf rs4.regs 3 (rs4.store 3) }

def rs6 : CacheSys := { rs5 with rpc := 4 + 2, regs := updf rs5.regs 4 (rs5.store 4) }

def rs7 : CacheSys := { rs6 with rpc := 5 + 2, regs := updf rs6.regs 5 (rs6.store 5) }

def rs8 : CacheSys := { rs7 with rpc := 6 + 2, regs := updf rs7.regs 6 (rs7.store 6) }

def rs9 : CacheSys := { rs8 with rpc := 9, lock := .nobody }


/-! ## Helper lemmas -/

theorem except_bind_ok {ε α β : Type} {x : Except ε α} {f : α → Except ε β}
    {b : β} (h : x.bind f = .ok b) : ∃ a, x = .ok a ∧ f a = .ok b := by
  cases x with
  | ok a => exact ⟨a, rfl, h⟩
  | error e => exact absurd h (by simp [Except.bind])

theorem dget_dinsert_self {α β : Type} [DecidableEq α]
    (d : List (α × β)) (k : α) (v : β) : dget (dinsert d k v) k = some v := by
  induction d with
  | nil => simp [dinsert, dget]
  | cons p rest ih =>
      obtain ⟨p1, p2⟩ := p
      by_cases h : p1 = k
      · simp [dinsert, h, dget]
      · simp [dinsert, h, dget, ih]

theorem dget_dinsert_ne {α β : Type} [DecidableEq α]
    (d : List (α × β)) (k k2 : α) (v : β) (h : k2 ≠ k) :
    dget (dinsert d k v) k2 = dget d k2 := by
  have hne : ¬(k = k2) := fun h2 => h h2.symm
  induction d with
  | nil => simp [dinsert, dget, hne]
  | cons p rest ih =>
      obtain ⟨p1, p2⟩ := p
      by_cases h1 : p1 = k
      · subst h1
        simp [dinsert, dget, hne]
      · by_cases h2 : p1 = k2 <;> simp [dinsert, h1, dget, h2, ih, h]

theorem mem_dkeys_dinsert {α β : Type} [DecidableEq α]
    (d : List (α × β)) (k i : α) (v : β) :
    i ∈ dkeys (dinsert d k v) ↔ i = k ∨ i ∈ dkeys d := by
  induction d with
  | nil => simp [dinsert, dkeys]
  | cons p rest ih =>
      obtain ⟨p1, p2⟩ := p
      by_cases h : p1 = k
      · subst h
        simp [dinsert, dkeys]
      · simp only [dinsert, if_neg h, dkeys, List.map_cons, List.mem_cons] at ih ⊢
        tauto

theorem dget_eq_none_iff {α β : Type} [DecidableEq α]
    (d : List (α × β)) (k : α) : dget d k = none ↔ k ∉ dkeys d := by
  induction d with
  | nil => simp [dget, dkeys]
  | cons p rest ih =>
      obtain ⟨p1, p2⟩ := p
      by_cases h : p1 = k
      · subst h
        simp [dget, dkeys]
      · simp only [dget, if_neg h, dkeys, List.map_cons, List.mem_cons] at ih ⊢
        rw [ih]
        constructor
        · intro hk hor
          rcases hor with h1 | h2
          · exact h h1.symm
          · exact hk h2
        · intro hk h2
          exact hk (Or.inr h2)

theorem dget_isSome_iff_mem {α β : Type} [DecidableEq α]
    (d : List (α × β)) (k : α) : (dget d k).isSome = true ↔ k ∈ dkeys d := by
  rw [← Decidable.not_iff_not, ← dget_eq_none_iff d k]
  cases dget d k <;> simp

theorem dkeys_dinsert_nodup {α β : Type} [DecidableEq α]
    (d : List (α × β)) (k : α) (v : β) (h : (dkeys d).Nodup) :
    (dkeys (dinsert d k v)).Nodup := by
  induction d with
  | nil => simp [dinsert, dkeys]
  | cons p rest ih =>
      obtain ⟨p1, p2⟩ := p
      simp only [dkeys, List.map_cons, List.nodup_cons] at h
      by_cases h1 : p1 = k
      · subst h1
        simpa [dinsert, dkeys] using h
      · simp only [dinsert, if_neg h1, dkeys, List.map_cons, List.nodup_cons]
        refine ⟨fun hm => ?_, ih h.2⟩
        rcases (mem_dkeys_dinsert rest k p1 v).mp hm with h2 | h2
        · exact h1 h2
        · exact h.1 h2

theorem dinsert_append {α β : Type} [DecidableEq α]
    (d : List (α × β)) (k : α) (v : β) (h : k ∉ dkeys d) :
    dinsert d k v = d ++ [(k, v)] := by
  induction d with
  | nil => simp [dinsert]
  | cons p rest ih =>
      obtain ⟨p1, p2⟩ := p
      simp only [dkeys, List.map_cons, List.mem_cons] at h
      push_neg at h
      have hne : ¬p1 = k := fun h2 => h.1 h2.symm
      simp only [dinsert, if_neg hne, List.cons_append, List.cons.injEq,
        true_and]
      exact ih h.2

theorem convEntries_jnum (m : List (String × Int)) :
    ∀ acc : List (String × Int),
    (∀ p ∈ m, p.1 ∉ dkeys acc) → (dkeys m).Nodup →
    convEntries (m.map (fun p => (p.1, Json.jnum p.2))) acc = .ok (acc ++ m) := by
  induction m with
  | nil => intro acc _ _; simp [convEntries]
  | cons p rest ih =>
      intro acc hdisj hnd
      obtain ⟨k, v⟩ := p
      simp only [dkeys, List.map_cons, List.nodup_cons] at hnd
      have hk : k ∉ dkeys acc := hdisj (k, v) (List.mem_cons_self _ _)
      simp only [List.map_cons, convEntries, pyInt]
      rw [dinsert_append acc k v hk]
      rw [ih (acc ++ [(k, v)]) ?_ hnd.2]
      · simp
      · intro q hq
        have hq1 : q.1 ∈ dkeys rest := List.mem_map_of_mem Prod.fst hq
        simp only [dkeys, List.map_append, List.map_cons, List.map_nil,
          List.mem_append, List.mem_cons, List.not_mem_nil, or_false]
        push_neg
        refine ⟨fun hmem => ?_, fun heq => ?_⟩
        · exact hdisj q (List.mem_cons_of_mem _ hq) hmem
        · exact hnd.1 (heq ▸ hq1)

theorem load_map_mapToJson (m : List (String × Int))
    (hnd : (dkeys m).Nodup) : load_map (.content (mapToJson m)) = m := by
  have h := convEntries_jnum m [] (by simp [dkeys]) hnd
  simp only [load_map, load_map_body, mapToJson, h, List.nil_append]

theorem convEntries_bad (es : List (String × Json)) :
    ∀ acc : List (String × Int), ∀ kv ∈ es, (pyInt kv.2).isOk = false →
    (convEntries es acc).isOk = false := by
  induction es with
  | nil => intro acc kv h; exact absurd h (List.not_mem_nil kv)
  | cons p rest ih =>
      intro acc kv hmem hbad
      obtain ⟨k, v⟩ := p
      rcases List.mem_cons.mp hmem with h1 | h1
      · subst h1
        simp only [convEntries]
        cases h2 : pyInt v with
        | ok n => rw [h2] at hbad; exact absurd hbad (by simp [Except.isOk, Except.toBool])
        | error e => simp [Except.isOk, Except.toBool]
      · simp only [convEntries]
        cases h2 : pyInt v with
        | ok n => exact ih (dinsert acc k n) kv h1 hbad
        | error e => simp [Except.isOk, Except.toBool]

theorem collect_dpi_get (w : World) (idx_map : List (String × Int))
    (mons : List Monitor) :
    ∀ (acc res : List (Int × String)),
    collect_dpi w idx_map mons acc = .ok res →
    ∀ i : Int, dget res i =
      if (mons.any fun m => effIdx idx_map m == i) && (goodRead w i).isSome
      then goodRead w i else dget acc i := by
  induction mons with
  | nil =>
      intro acc res h i
      simp only [collect_dpi] at h
      cases h
      simp
  | cons m rest ih =>
      intro acc res h i
      simp only [collect_dpi, bind, Except.bind] at h
      cases hv : get_dpi_value w (effIdx idx_map m) with
      | error e => rw [hv] at h; cases h
      | ok val =>
          rw [hv] at h
          have h2 : collect_dpi w idx_map rest
              (applyRead acc (effIdx idx_map m) val) = .ok res := h
          cases hg : goodRead w (effIdx idx_map m) with
          | none =>
              have happ : applyRead acc (effIdx idx_map m) val = acc := by
                unfold goodRead at hg
                rw [hv] at hg
                cases val with
                | none => simp [applyRead]
                | some v2 =>
                    by_cases he : v2.isEmpty
                    · simp [applyRead, he]
                    · simp [he] at hg
              rw [happ] at h2
              have hres := ih _ res h2 i
              rw [hres]
              by_cases hm : effIdx idx_map m = i
              · subst hm
                rw [hg]
                simp
              · have hbeq : (effIdx idx_map m == i) = false := by simp [hm]
                simp [List.any_cons, hbeq]
          | some v =>
              have happ : applyRead acc (effIdx idx_map m) val =
                  dinsert acc (effIdx idx_map m) v := by
                unfold goodRead at hg
                rw [hv] at hg
                cases val with
                | none => simp at hg
                | some v2 =>
                    by_cases he : v2.isEmpty
                    · simp [he] at hg
                    · simp [he] at hg
                      subst hg
                      simp [applyRead, he]
              rw [happ] at h2
              have hres := ih _ res h2 i
              rw [hres]
              by_cases hm : effIdx idx_map m = i
              · subst hm
                rw [hg]
                simp only [List.any_cons, beq_self_eq_true, Bool.true_or,
                  Option.isSome_some, Bool.and_true, if_true]
                by_cases hr : (rest.any fun m2 =>
                    effIdx idx_map m2 == effIdx idx_map m) = true
                · simp [hr]
                · simp [hr, dget_dinsert_self]
              · have hbeq : (effIdx idx_map m == i) = false := by simp [hm]
                simp only [List.any_cons, hbeq, Bool.false_or]
                by_cases hc : ((rest.any fun m2 => effIdx idx_map m2 == i) &&
                    (goodRead w i).isSome) = true
                · simp [hc]
                · simp only [Bool.not_eq_true] at hc
                  rw [hc]
                  simp only [Bool.false_eq_true, if_false]
                  exact dget_dinsert_ne acc _ i v (fun he => hm he.symm)

theorem collect_state_parts (w : World) (snap : Snapshot)
    (h : collect_state w = .ok snap) :
    snap.idx_map = load_map w.file ∧
    list_monitors w = .ok snap.mons ∧
    collect_dpi w (load_map w.file) snap.mons [] = .ok snap.dpi := by
  simp only [collect_state, bind] at h
  obtain ⟨raw, h1, h⟩ := except_bind_ok h
  obtain ⟨outs, h2, h⟩ := except_bind_ok h
  obtain ⟨ins, h3, h⟩ := except_bind_ok h
  obtain ⟨defs, h4, h⟩ := except_bind_ok h
  obtain ⟨mons, h5, h⟩ := except_bind_ok h
  obtain ⟨dpi, h6, h⟩ := except_bind_ok h
  simp only [pure, Except.pure, Except.ok.injEq] at h
  subst h
  exact ⟨rfl, h5, h6⟩


theorem cstep_inv {s s2 : CacheSys} (hs : CacheInv s) (h : CStep s s2) :
    CacheInv s2 := by
  cases h with
  | wAcq h1 h2 =>
      refine ⟨?_, ?_, ?_, ?_, ?_, ?_, ?_⟩
      · show (1 : Nat) ≤ 9
        norm_num
      · exact hs.hr
      · intro k hk
        show s.store k = decide (k < writesDone 1)
        have hold := hs.hstore k hk
        rw [h2] at hold
        simpa [writesDone] using hold
      · intro _ _
        rfl
      · intro ha hb
        exfalso
        have hc := hs.hrl ha hb
        rw [h1] at hc
        exact absurd hc (by decide)
      · intro ha hb
        exfalso
        have hc := hs.hrl ha hb
        rw [h1] at hc
        exact absurd hc (by decide)
      · intro h9
        exact hs.hdone h9
  | wWrite k hpc hk =>
      refine ⟨?_, ?_, ?_, ?_, ?_, ?_, ?_⟩
      · show k + 2 ≤ 9
        omega
      · exact hs.hr
      · intro j hj
        show updf s.store k true j = decide (j < writesDone (k + 2))
        by_cases hjk : j = k
        · subst hjk
          have hu : updf s.store j true j = true := by simp [updf]
          rw [hu, eq_comm, decide_eq_true_eq, writesDone]
          omega
        · simp only [updf, if_neg hjk]
          have hold := hs.hstore j hj
          rw [hpc] at hold
          rw [hold, decide_eq_decide, writesDone, writesDone]
          omega
      · intro _ _
        show s.lock = .writer
        exact hs.hwl (by omega) (by omega)
      · intro ha hb
        exfalso
        have hc := hs.hrl ha hb
        have hc2 := hs.hwl (by omega) (by omega)
        rw [hc] at hc2
        exact absurd hc2 (by decide)
      · intro ha hb
        exfalso
        have hc := hs.hrl ha hb
        have hc2 := hs.hwl (by omega) (by omega)
        rw [hc] at hc2
        exact absurd hc2 (by decide)
      · intro h9
        exact hs.hdone h9
  | wRel hpc =>
      refine ⟨?_, ?_, ?_, ?_, ?_, ?_, ?_⟩
      · show (9 : Nat) ≤ 9
        norm_num
      · exact hs.hr
      · intro j hj
        show s.store j = decide (j < writesDone 9)
        have hold := hs.hstore j hj
        rw [hpc] at hold
        simpa [writesDone] using hold
      · intro _ hb
        exact absurd (show (9 : Nat) ≤ 8 from hb) (by norm_num)
      · intro ha hb
        exfalso
        have hc := hs.hrl ha hb
        have hc2 := hs.hwl (by omega) (by omega)
        rw [hc] at hc2
        exact absurd hc2 (by decide)
      · intro ha hb
        exfalso
        have hc := hs.hrl ha hb
        have hc2 := hs.hwl (by omega) (by omega)
        rw [hc] at hc2
        exact absurd hc2 (by decide)
      · intro h9
        exact hs.hdone h9
  | rAcq h1 h2 =>
      refine ⟨?_, ?_, ?_, ?_, ?_, ?_, ?_⟩
      · exact hs.hw
      · show (1 : Nat) ≤ 9
        norm_num
      · intro k hk
        exact hs.hstore k hk
      · intro ha hb
        exfalso
        have hc := hs.hwl ha hb
        rw [h1] at hc
        exact absurd hc (by decide)
      · intro _ _
        rfl
      · intro _ _ j hj
        exfalso
        have hj2 : j < readsDone 1 := hj
        rw [readsDone] at hj2
        omega
      · intro h9
        exact absurd (show (1 : Nat) = 9 from h9) (by norm_num)
  | rRead k hpc hk =>
      refine ⟨?_, ?_, ?_, ?_, ?_, ?_, ?_⟩
      · exact hs.hw
      · show k + 2 ≤ 9
        omega
      · intro j hj
        exact hs.hstore j hj
      · intro ha hb
        exfalso
        have hc := hs.hwl ha hb
        have hc2 := hs.hrl (by omega) (by omega)
        rw [hc] at hc2
        exact absurd hc2 (by decide)
      · intro _ _
        exact hs.hrl (by omega) (by omega)
      · intro _ _ j hj
        have hj2 : j < readsDone (k + 2) := hj
        rw [readsDone] at hj2
        show updf s.regs k (s.store k) j = s.store j
        by_cases hjk : j = k
        · subst hjk
          simp [updf]
        · simp only [updf, if_neg hjk]
          refine hs.hregs (by omega) (by omega) j ?_
          rw [hpc, readsDone]
          omega
      · intro h9
        exfalso
        have h92 : k + 2 = 9 := h9
        omega
  | rRel hpc =>
      refine ⟨?_, ?_, ?_, ?_, ?_, ?_, ?_⟩
      · exact hs.hw
      · show (9 : Nat) ≤ 9
        norm_num
      · intro j hj
        exact hs.hstore j hj
      · intro ha hb
        exfalso
        have hc := hs.hrl (by omega) (by omega)
        have hc2 := hs.hwl ha hb
        rw [hc] at hc2
        exact absurd hc2 (by decide)
      · intro _ hb
        exact absurd (show (9 : Nat) ≤ 8 from hb) (by norm_num)
      · intro _ hb
        exact absurd (show (9 : Nat) ≤ 8 from hb) (by norm_num)
      · intro _
        have hread := hs.hregs (by omega) (by omega)
        have hlr := hs.hrl (by omega) (by omega)
        have hwrange : s.wpc = 0 ∨ s.wpc = 9 := by
          by_cases hcs : 1 ≤ s.wpc ∧ s.wpc ≤ 8
          · exfalso
            have hc2 := hs.hwl hcs.1 hcs.2
            rw [hlr] at hc2
            exact absurd hc2 (by decide)
          · have hw9 := hs.hw
            omega
        rcases hwrange with hw0 | hw9
        · left
          intro j hj
          show s.regs j = false
          have hr1 := hread j (by rw [hpc, readsDone]; omega)
          have hst := hs.hstore j hj
          rw [hw0] at hst
          rw [hr1, hst]
          simp [writesDone]
        · right
          intro j hj
          show s.regs j = true
          have hr1 := hread j (by rw [hpc, readsDone]; omega)
          have hst := hs.hstore j hj
          rw [hw9] at hst
          rw [hr1, hst, decide_eq_true_eq, writesDone]
          omega

theorem creach_inv {s : CacheSys} (h : CReach s) : CacheInv s := by
  induction h with
  | init =>
      refine ⟨?_, ?_, ?_, ?_, ?_, ?_, ?_⟩
      · show (0 : Nat) ≤ 9
        norm_num
      · show (0 : Nat) ≤ 9
        norm_num
      · intro k hk
        show false = decide (k < writesDone 0)
        simp [writesDone]
      · intro ha _
        exact absurd (show (1 : Nat) ≤ 0 from ha) (by norm_num)
      · intro ha _
        exact absurd (show (1 : Nat) ≤ 0 from ha) (by norm_num)
      · intro ha _
        exact absurd (show (1 : Nat) ≤ 0 from ha) (by norm_num)
      · intro h9
        exact absurd (show (0 : Nat) = 9 from h9) (by norm_num)
  | step _ hstep ih => exact cstep_inv ih hstep

theorem list_audio_devices_parse_fail (w : World) (cp : Cp)
    (h1 : w.psList = .ok cp) (h2 : (w.jsonLoads cp.stdout).isOk = false) :
    list_audio_devices w = .ok (.jarr []) := by
  unfold list_audio_devices
  rw [h1]
  by_cases he : cp.stdout.isEmpty
  · simp [bind, Except.bind, he, pure, Except.pure, pyTruthy]
  · cases hp : w.jsonLoads cp.stdout with
    | ok j =>
        rw [hp] at h2
        exact absurd h2 (by simp [Except.isOk, Except.toBool])
    | error e => simp [bind, Except.bind, he, hp, pure, Except.pure]

theorem list_audio_devices_blank (w : World) :
    list_audio_devices (audioBlank w) = .ok (.jarr []) := rfl

theorem collect_dpi_congr (w w2 : World)
    (h : ∀ i, get_dpi_value w i = get_dpi_value w2 i)
    (im : List (String × Int)) :
    ∀ (mons : List Monitor) (acc : List (Int × String)),
    collect_dpi w im mons acc = collect_dpi w2 im mons acc := by
  intro mons
  induction mons with
  | nil => intro acc; rfl
  | cons m rest ih =>
      intro acc
      simp only [collect_dpi, h, ih]

theorem collect_state_audio_fail (w : World) (cp : Cp)
    (h1 : w.psList = .ok cp) (h2 : (w.jsonLoads cp.stdout).isOk = false) :
    collect_state w = collect_state (audioBlank w) := by
  unfold collect_state
  rw [list_audio_devices_parse_fail w cp h1 h2, list_audio_devices_blank w]
  have e1 : get_default_ids (audioBlank w) = get_default_ids w := rfl
  have e2 : list_monitors (audioBlank w) = list_monitors w := rfl
  have e3 : load_map (audioBlank w).file = load_map w.file := rfl
  have e5 : (audioBlank w).now = w.now := rfl
  have e4 := collect_dpi_congr (audioBlank w) w (fun i => rfl)
  simp only [e1, e2, e3, e4, e5]

theorem creach_rs9 : CReach rs9 :=
  CReach.step (CReach.step (CReach.step (CReach.step (CReach.step (CReach.step
    (CReach.step (CReach.step (CReach.step CReach.init
      (CStep.rAcq cacheInit rfl rfl))
      (CStep.rRead rs1 0 rfl (by norm_num)))
      (CStep.rRead rs2 1 rfl (by norm_num)))
      (CStep.rRead rs3 2 rfl (by norm_num)))
      (CStep.rRead rs4 3 rfl (by norm_num)))
      (CStep.rRead rs5 4 rfl (by norm_num)))
      (CStep.rRead rs6 5 rfl (by norm_num)))
      (CStep.rRead rs7 6 rfl (by norm_num)))
    (CStep.rRel rs8 rfl)

/-! ## Claim theorems -/

/-- C1 (counterexample): the claim that the scale map keys equal
exactly the effective target indices fails on the code.  In `w0` the
pass succeeds with one monitor of effective index 1, but the scaling
tool prints nothing, so the read is omitted and the scale map is
empty: 1 is an effective index yet not a key. -/
theorem scale_keys_mismatch_cex :
    collect_state w0 = .ok snap0 ∧
    effIndices snap0.idx_map snap0.mons = [1] ∧
    dkeys snap0.dpi = [] ∧
    (1 : Int) ∈ effIndices snap0.idx_map snap0.mons ∧
    (1 : Int) ∉ dkeys snap0.dpi :=
  ⟨rfl, rfl, rfl, by decide, by decide⟩

/-- C1 (amended): for every snapshot a refresh pass produces, the
scale map keys are exactly the effective target indices at which the
scaling provider returned a non-empty value; in particular they are
always a subset of the effective indices, with equality when every
read succeeds. -/
theorem scale_keys_eq_readable_eff_indices (w : World) (snap : Snapshot)
    (h : collect_state w = .ok snap) (i : Int) :
    i ∈ dkeys snap.dpi ↔
      i ∈ effIndices snap.idx_map snap.mons ∧ (goodRead w i).isSome = true := by
  obtain ⟨him, hlm, hdpi⟩ := collect_state_parts w snap h
  have hres := collect_dpi_get w (load_map w.file) snap.mons [] snap.dpi hdpi i
  rw [← him] at hres
  constructor
  · intro hmem
    have hsome := (dget_isSome_iff_mem snap.dpi i).mpr hmem
    by_cases hc : ((snap.mons.any fun m => effIdx snap.idx_map m == i) &&
        (goodRead w i).isSome) = true
    · have hany := (Bool.and_eq_true _ _).mp hc
      refine ⟨?_, hany.2⟩
      rcases List.any_eq_true.mp hany.1 with ⟨m, hm, hbeq⟩
      rw [effIndices, List.mem_map]
      exact ⟨m, hm, by simpa using hbeq⟩
    · simp only [Bool.not_eq_true] at hc
      rw [hc] at hres
      simp only [Bool.false_eq_true, if_false] at hres
      have hnone : dget ([] : List (Int × String)) i = none := rfl
      rw [hnone] at hres
      rw [hres] at hsome
      simp at hsome
  · rintro ⟨hmem, hsome⟩
    rw [effIndices, List.mem_map] at hmem
    obtain ⟨m, hm, heq⟩ := hmem
    have hany : (snap.mons.any fun m => effIdx snap.idx_map m == i) = true :=
      List.any_eq_true.mpr ⟨m, hm, by simp [heq]⟩
    rw [hany, hsome] at hres
    simp only [Bool.and_self, if_true] at hres
    rw [← dget_isSome_iff_mem, hres]
    exact hsome

/-- Witness for the amended C1 at the concrete world `w1`. -/
theorem scale_keys_eq_readable_eff_indices_witness :
    (7 : Int) ∈ dkeys snap1.dpi ↔
      (7 : Int) ∈ effIndices snap1.idx_map snap1.mons ∧
        (goodRead w1 7).isSome = true :=
  scale_keys_eq_readable_eff_indices w1 snap1 rfl 7

/-- C2: for every monitor of a collected snapshot, the effective
index is `mapping.get(fingerprint, ephemeral_index)`, and the scale
map at that index holds exactly the provider value when the read is
present and non-empty, and no entry at all otherwise (no default is
substituted). -/
theorem effective_index_query (w : World) (snap : Snapshot)
    (h : collect_state w = .ok snap) (m : Monitor) (hm : m ∈ snap.mons) :
    effIdx snap.idx_map m = (dget snap.idx_map m.fp).getD m.index ∧
    dget snap.dpi (effIdx snap.idx_map m) = goodRead w (effIdx snap.idx_map m) := by
  refine ⟨rfl, ?_⟩
  obtain ⟨him, hlm, hdpi⟩ := collect_state_parts w snap h
  have hres := collect_dpi_get w (load_map w.file) snap.mons [] snap.dpi hdpi
    (effIdx snap.idx_map m)
  rw [← him] at hres
  have hany : (snap.mons.any fun m2 =>
      effIdx snap.idx_map m2 == effIdx snap.idx_map m) = true :=
    List.any_eq_true.mpr ⟨m, hm, by simp⟩
  rw [hany] at hres
  cases hg : goodRead w (effIdx snap.idx_map m) with
  | none => rw [hg] at hres; simpa using hres
  | some v => rw [hg] at hres; simpa using hres

/-- Witness for C2 at the concrete world `w1`: the mapped monitor is
queried at index 7, not at its ephemeral index 1. -/
theorem effective_index_query_witness :
    dget snap1.dpi (effIdx snap1.idx_map mon1)
      = goodRead w1 (effIdx snap1.idx_map mon1) :=
  (effective_index_query w1 snap1 rfl mon1 (List.Mem.head _)).2

/-- C3 (counterexample): not every query inside the pass is
individually guarded.  In `w2` the audio listing query returns the
JSON payload `5`: `list_audio_devices` catches nothing (the payload
parses) and returns `5` unvalidated, and iterating it in
`list_devices_by_type_from_raw` raises, aborting the whole pass even
though the monitor subsystem was healthy — no snapshot with populated
`monitors` is produced; the worker keeps the previous state. -/
theorem audio_shape_aborts_pass_cex :
    (collect_state w2).isOk = false ∧
    list_monitors w2 = .ok [mon1] ∧
    refresh_worker w2 emptySnap = emptySnap :=
  ⟨rfl, rfl, rfl⟩

/-- C3 (amended): the refresh worker itself never raises — a failed
collection leaves the previous snapshot, a successful one is
published in full — and a parse failure of the audio payload is
guarded and equivalent to an empty audio listing, leaving the rest of
the pass untouched; but a provider call that raises, or a JSON-valid
audio payload of the wrong shape, aborts the entire pass. -/
theorem refresh_guard_characterization (w : World) (prev : Snapshot) :
    ((collect_state w).isOk = false → refresh_worker w prev = prev) ∧
    (∀ snap, collect_state w = .ok snap → refresh_worker w prev = snap) ∧
    (∀ cp, w.psList = .ok cp → (w.jsonLoads cp.stdout).isOk = false →
      collect_state w = collect_state (audioBlank w)) := by
  refine ⟨?_, ?_, ?_⟩
  · intro h
    cases hc : collect_state w with
    | ok s =>
        rw [hc] at h
        exact absurd h (by simp [Except.isOk, Except.toBool])
    | error e => simp [refresh_worker, hc]
  · intro snap h
    simp [refresh_worker, h]
  · intro cp h1 h2
    exact collect_state_audio_fail w cp h1 h2

/-- Witness for the amended C3: the worker keeps the previous state
at `w2`, and at `w0` the unparsable audio output is equivalent to a
blank one. -/
theorem refresh_guard_characterization_witness :
    refresh_worker w2 emptySnap = emptySnap ∧
    collect_state w0 = collect_state (audioBlank w0) :=
  ⟨(refresh_guard_characterization w2 emptySnap).1 rfl,
   (refresh_guard_characterization w0 emptySnap).2.2 { stdout := "" } rfl rfl⟩

/-- C4: dispatching `set_mapping(fp, n)` over a prior in-memory table
and then `load()` yields a table with `fp → n` that preserves every
other fingerprint of the prior table (assuming the durable write
itself succeeds; a Python dict never has duplicate keys, whence the
`Nodup` hypothesis). -/
theorem set_mapping_load_round_trip (fp : String) (n : Int)
    (prior : List (String × Int)) (file : FileState)
    (hnd : (dkeys prior).Nodup) :
    dget (load_map (set_mapping fp n ⟨prior, file⟩ SaveOutcome.ok).file) fp
        = some n ∧
    ∀ k, k ≠ fp →
      dget (load_map (set_mapping fp n ⟨prior, file⟩ SaveOutcome.ok).file) k
        = dget prior k := by
  have hfile : (set_mapping fp n ⟨prior, file⟩ SaveOutcome.ok).file
      = .content (mapToJson (dinsert prior fp n)) := rfl
  rw [hfile, load_map_mapToJson _ (dkeys_dinsert_nodup prior fp n hnd)]
  exact ⟨dget_dinsert_self prior fp n,
         fun k hk => dget_dinsert_ne prior fp k n hk⟩

/-- Witness for C4: a round trip over the prior table `{b: 1}`. -/
theorem set_mapping_load_round_trip_witness :
    dget (load_map (set_mapping "a" 3 ⟨[("b", 1)], FileState.absent⟩
        SaveOutcome.ok).file) "a" = some 3 ∧
    dget (load_map (set_mapping "a" 3 ⟨[("b", 1)], FileState.absent⟩
        SaveOutcome.ok).file) "b" = some 1 := by
  have h := set_mapping_load_round_trip "a" 3 [("b", 1)] FileState.absent
    (by decide)
  refine ⟨h.1, ?_⟩
  rw [h.2 "b" (by decide)]
  rfl

/-- C5: `load()` never raises — it is a total function — and on any
failure of its body (missing file, unparsable text, bad entry) it
returns the empty table. -/
theorem load_map_fail_soft :
    (∀ f : FileState, load_map f = [] ∨ load_map_body f = .ok (load_map f)) ∧
    load_map FileState.absent = [] ∧ load_map FileState.unparsable = [] := by
  refine ⟨fun f => ?_, rfl, rfl⟩
  cases h : load_map_body f with
  | ok m =>
      right
      simp [load_map, h]
  | error e =>
      left
      simp [load_map, h]

/-- C6 (counterexample): a failure partway through the write loses
the prior durable contents: `open(..., "w")` has already truncated
the file, so the mapping `{a: 1}` that `load` could read before the
failed save is gone afterwards. -/
theorem save_map_midwrite_corrupts_cex :
    load_map (FileState.content (.jobj [("a", Json.jnum 1)])) = [("a", 1)] ∧
    save_map [("x", 2)] (FileState.content (.jobj [("a", Json.jnum 1)]))
      SaveOutcome.failMidWrite = FileState.unparsable ∧
    load_map (save_map [("x", 2)]
      (FileState.content (.jobj [("a", Json.jnum 1)]))
      SaveOutcome.failMidWrite) = [] :=
  ⟨rfl, rfl, rfl⟩

/-- C6 (amended): `save_map` never raises (it is total and catches
internally), and a failure of `open` itself leaves the prior durable
contents unchanged; but the write is not atomic, so a failure after
`open` leaves an unparsable file instead of the prior contents. -/
theorem save_map_outcomes (m : List (String × Int)) (f : FileState) :
    save_map m f SaveOutcome.failOpen = f ∧
    save_map m f SaveOutcome.ok = .content (mapToJson m) ∧
    save_map m f SaveOutcome.failMidWrite = .unparsable :=
  ⟨rfl, rfl, rfl⟩

/-- C7 (counterexample): `set_mapping` performs no range validation:
dispatching it with the out-of-range index 999 (the menu offers at
most `max(8, number of monitors)`) changes both the in-memory table
and the durable file — it is not a no-op. -/
theorem set_mapping_out_of_range_not_noop_cex :
    (set_mapping "fp" 999 ⟨[], FileState.absent⟩ SaveOutcome.ok).idx_map
        = [("fp", 999)] ∧
    load_map (set_mapping "fp" 999 ⟨[], FileState.absent⟩
        SaveOutcome.ok).file = [("fp", 999)] ∧
    load_map FileState.absent = [] ∧
    (999 : Nat) ∉ map_choice_indices [] :=
  ⟨rfl, rfl, rfl, by decide⟩

/-- C7 (amended): the guard against invalid input lives upstream of
the mutation: the mapping submenu only ever creates handlers for
indices 1..max(8, number of monitors), and the audio mutation is a
no-op on an empty endpoint id; `set_mapping` itself merges whatever
index it is handed, unconditionally. -/
theorem input_guard_location (mons : List Monitor) (n : Nat) (role : String) :
    (n ∈ map_choice_indices mons ↔ 1 ≤ n ∧ n ≤ maxChoice mons) ∧
    set_default_device "" role = none ∧
    (∀ (fp : String) (i : Int) (st : MapState),
      (set_mapping fp i st SaveOutcome.ok).idx_map = dinsert st.idx_map fp i) := by
  refine ⟨?_, rfl, fun fp i st => rfl⟩
  rw [map_choice_indices, List.mem_range'_1]
  omega

/-- Witness for the amended C7 at a concrete menu. -/
theorem input_guard_location_witness :
    (8 ∈ map_choice_indices []) ∧ set_default_device "" "console" = none :=
  ⟨(input_guard_location [] 8 "console").1.mpr (by decide),
   (input_guard_location [] 8 "console").2.1⟩

/-- C8: whatever the oracle makes of each call — the mutation may
succeed or raise — each dispatched action's trace contains exactly
one refresh trigger: the DPI and audio handlers guarantee it with
`try/finally`, and `set_mapping` reaches its trailing refresh because
the dict update cannot raise and `save_map` swallows its own
exceptions (assuming the fallback log print does not itself raise). -/
theorem dispatch_refresh_exactly_once (f : Ev → Bool)
    (h1 : f Ev.updMap = false) (h2 : f Ev.logPrint = false) :
    countRefresh (exec setDpiProg f).1 = 1 ∧
    countRefresh (exec setAudioProg f).1 = 1 ∧
    countRefresh (exec setMappingProg f).1 = 1 := by
  refine ⟨rfl, rfl, ?_⟩
  simp only [setMappingProg, saveMapProg, exec, h1, h2]
  cases hw : f Ev.writeFile <;>
      simp only [hw, countRefresh, List.countP, List.countP.go] <;> decide

/-- Witness for C8 with the all-succeeding oracle. -/
theorem dispatch_refresh_exactly_once_witness :
    countRefresh (exec setDpiProg (fun _ => false)).1 = 1 ∧
    countRefresh (exec setAudioProg (fun _ => false)).1 = 1 ∧
    countRefresh (exec setMappingProg (fun _ => false)).1 = 1 :=
  dispatch_refresh_exactly_once (fun _ => false) rfl rfl

/-- C9: in every reachable interleaving of the writer (the
lock-guarded seven-field publish at the end of `collect_state`) and a
reader (the lock-guarded seven-field copy at the top of
`_menu_items_dynamic`), a completed reader holds either the old value
for all seven fields or the new value for all seven — never a
mixture. -/
theorem reader_snapshot_consistent (s : CacheSys) (h : CReach s)
    (h9 : s.rpc = 9) :
    (∀ k, k < 7 → s.regs k = false) ∨ (∀ k, k < 7 → s.regs k = true) :=
  (creach_inv h).hdone h9

/-- Witness for C9: the reader-only execution reaches completion and
the theorem applies to it. -/
theorem reader_snapshot_consistent_witness :
    (∀ k, k < 7 → rs9.regs k = false) ∨ (∀ k, k < 7 → rs9.regs k = true) :=
  reader_snapshot_consistent rs9 creach_rs9 rfl

/-- C10: `load()` is all-or-nothing: one entry whose value `int`
rejects discards the whole table (valid entries included), and a
JSON document that is not an object also loads as the empty table.
(That every key is a string and every value an integer on success is
the return type of the embedding.) -/
theorem load_map_all_or_nothing (es : List (String × Json))
    (kv : String × Json) (hmem : kv ∈ es)
    (hbad : (pyInt kv.2).isOk = false) :
    load_map (.content (.jobj es)) = [] ∧
    (∀ xs : List Json, load_map (.content (.jarr xs)) = []) ∧
    (∀ str : String, load_map (.content (.jstr str)) = []) := by
  refine ⟨?_, fun xs => rfl, fun str => rfl⟩
  have hc := convEntries_bad es [] kv hmem hbad
  cases h : convEntries es [] with
  | ok m =>
      rw [h] at hc
      exact absurd hc (by simp [Except.isOk, Except.toBool])
  | error e => simp [load_map, load_map_body, h]

/-- Witness for C10: the valid entry `good → 1` is discarded because
of the bad entry `bad → null`. -/
theorem load_map_all_or_nothing_witness :
    load_map (.content (.jobj [("good", .jnum 1), ("bad", .jnull)])) = [] :=
  (load_map_all_or_nothing [("good", .jnum 1), ("bad", .jnull)]
    ("bad", Json.jnull) (List.Mem.tail _ (List.Mem.head _)) rfl).1
